import Mathlib

/-!
# A verification development for the GoZip archive engine

Shallow embedding of the ZIP writer (`NewZipWriter`, `AddFile`, `Close`),
the trailer locator (`findEOCD`), the trailer parser (`parseEOCD`), the
central-directory reader (`readCentralDirectoryEntry`), the local-header
reader (`readLocalFileHeader`), the entry materializer (`extractFile`) and
the enumeration driver (`ReadZip`).

Files are byte lists (`List Nat`, each element `< 256` by construction).
Machine integers are `Nat` with explicit `% 2^16` / `% 2^32` where the Go
code truncates.  I/O against a seekable file is modelled by two read
primitives mirroring the two kinds of reads the Go code performs:
`readFull` (the `binary.Read`/`io.ReadFull` style read that fails unless
all requested bytes exist) and `readRaw` (a single `os.File.Read` call:
fails only when positioned at or past EOF with a non-empty buffer,
otherwise fills the zero-initialized buffer with the available bytes and
advances the cursor by the number of bytes actually read; the Go code
ignores the returned count).
-/

namespace GoZip

/-! ## Little-endian encoding (encoding/binary, LittleEndian) -/

/-- Write a value as 2 little-endian bytes (semantics of writing a `uint16`,
truncating larger values as the Go conversions do). -/
def le16 (v : Nat) : List Nat := [v % 256, v / 256 % 256]

/-- Write a value as 4 little-endian bytes (semantics of writing a `uint32`). -/
def le32 (v : Nat) : List Nat :=
  [v % 256, v / 256 % 256, v / 65536 % 256, v / 16777216 % 256]

/-- Decode 2 little-endian bytes. -/
def rd16 (b0 b1 : Nat) : Nat := b0 + 256 * b1

/-- Decode 4 little-endian bytes. -/
def rd32 (b0 b1 b2 b3 : Nat) : Nat := b0 + 256 * b1 + 65536 * b2 + 16777216 * b3

/-! ## Collaborator: CRC-32, ISO-HDLC polynomial (hash/crc32.ChecksumIEEE) -/

/-- One bit step of the reflected CRC-32 with polynomial `0xEDB88320`. -/
def crcBit (c : Nat) : Nat := if c % 2 = 1 then (c / 2) ^^^ 0xEDB88320 else c / 2

/-- One byte step of CRC-32. -/
def crcByte (c b : Nat) : Nat :=
  crcBit (crcBit (crcBit (crcBit (crcBit (crcBit (crcBit (crcBit (c ^^^ b))))))))

/-- `crc32.ChecksumIEEE`: CRC-32 of a byte sequence. -/
def ChecksumIEEE (data : List Nat) : Nat :=
  (data.foldl crcByte 0xFFFFFFFF) ^^^ 0xFFFFFFFF

/-! ## Collaborator: UTF-8 validity (unicode/utf8.ValidString) -/

/-- Is `b` a UTF-8 continuation byte? -/
def isContByte (b : Nat) : Bool := 0x80 ≤ b && b ≤ 0xBF

/-- `utf8.ValidString` on the raw bytes: well-formed UTF-8, rejecting
overlong encodings, surrogates and code points above `U+10FFFF`. -/
def validUTF8 : List Nat → Bool
  | [] => true
  | b :: rest =>
    if b ≤ 0x7F then validUTF8 rest
    else if 0xC2 ≤ b && b ≤ 0xDF then
      match rest with
      | c1 :: r => isContByte c1 && validUTF8 r
      | [] => false
    else if b = 0xE0 then
      match rest with
      | c1 :: c2 :: r => (0xA0 ≤ c1 && c1 ≤ 0xBF) && isContByte c2 && validUTF8 r
      | _ => false
    else if (0xE1 ≤ b && b ≤ 0xEC) || b = 0xEE || b = 0xEF then
      match rest with
      | c1 :: c2 :: r => isContByte c1 && isContByte c2 && validUTF8 r
      | _ => false
    else if b = 0xED then
      match rest with
      | c1 :: c2 :: r => (0x80 ≤ c1 && c1 ≤ 0x9F) && isContByte c2 && validUTF8 r
      | _ => false
    else if b = 0xF0 then
      match rest with
      | c1 :: c2 :: c3 :: r =>
        (0x90 ≤ c1 && c1 ≤ 0xBF) && isContByte c2 && isContByte c3 && validUTF8 r
      | _ => false
    else if 0xF1 ≤ b && b ≤ 0xF3 then
      match rest with
      | c1 :: c2 :: c3 :: r =>
        isContByte c1 && isContByte c2 && isContByte c3 && validUTF8 r
      | _ => false
    else if b = 0xF4 then
      match rest with
      | c1 :: c2 :: c3 :: r =>
        (0x80 ≤ c1 && c1 ≤ 0x8F) && isContByte c2 && isContByte c3 && validUTF8 r
      | _ => false
    else false

/-! ## Format model: constants and record schemas -/

def EOCDMinSize : Nat := 22
def LocalFileHeaderSignature : Nat := 0x04034b50
def CentralDirectorySignature : Nat := 0x02014b50
/-- Trailer signature; value per the on-disk format table of the design
(the byte literal `50 4b 05 06` searched for by `findEOCD` is its
little-endian encoding). -/
def EndOfCentralDirectorySignature : Nat := 0x06054b50

/-- Calendar timestamp handed to the packing transform (the fields
`time.Time` exposes to `timeToMSDos`). -/
structure DateTime where
  year : Nat
  month : Nat
  day : Nat
  hour : Nat
  minute : Nat
  second : Nat
deriving DecidableEq

/-- `timeToMSDos`: pack a calendar timestamp into the legacy 16-bit
(time, date) words.  Result order follows the source: `(dosTime, dosDate)`.
Years below 1980 clamp to 0 (the Go code computes `t.Year() - 1980` as an
`int` and clamps negatives; with a `Nat` year the clamped value is
`if year < 1980 then 0 else year - 1980`). -/
def timeToMSDos (t : DateTime) : Nat × Nat :=
  let year := if t.year < 1980 then 0 else t.year - 1980
  let dosDate := (year <<< 9 ||| t.month <<< 5 ||| t.day) % 65536
  let dosTime := (t.hour <<< 11 ||| t.minute <<< 5 ||| t.second / 2) % 65536
  (dosTime, dosDate)

/-- Writer-side per-entry record (`fileRecord`). -/
structure FileRecord where
  name : List Nat
  compressedSize : Nat
  uncompressedSize : Nat
  crc32 : Nat
  compressionMethod : Nat
  modTime : Nat
  modDate : Nat
  localHeaderOffset : Nat
  versionMadeBy : Nat
  versionNeeded : Nat
  flags : Nat
  extraField : List Nat
  comment : List Nat
  diskNumberStart : Nat
  internalAttrs : Nat
  externalAttrs : Nat
deriving DecidableEq

/-- `ZipWriter`: the sink buffer `w`, the accumulated records and the
running byte offset. -/
structure ZipWriter where
  w : List Nat
  files : List FileRecord
  offset : Nat
deriving DecidableEq

/-- `NewZipWriter`: empty sink, no records, offset 0. -/
def NewZipWriter : ZipWriter := { w := [], files := [], offset := 0 }

/-- The success path of `AddFile` (steps 1–7 after validation): CRC of the
payload, local record bytes to the sink, in-memory record appended, offset
advanced by `4 + 26 + len(name) + len(data)`. -/
def addFileSuccess (zw : ZipWriter) (name d : List Nat) (now : DateTime) : ZipWriter :=
  let crc := ChecksumIEEE d
  let headerOffset := zw.offset
  let flags := if validUTF8 name then 0x0800 else 0
  let md := timeToMSDos now
  let localBytes :=
    le32 LocalFileHeaderSignature ++ le16 20 ++ le16 flags ++ le16 0 ++
    le16 md.1 ++ le16 md.2 ++ le32 crc ++ le32 (d.length % 4294967296) ++
    le32 (d.length % 4294967296) ++ le16 (name.length % 65536) ++ le16 0 ++
    name ++ d
  let record : FileRecord := {
    name := name
    versionMadeBy := 0x0314
    versionNeeded := 20
    flags := 0x0800
    compressionMethod := 0
    modTime := md.1
    modDate := md.2
    crc32 := crc
    compressedSize := d.length % 4294967296
    uncompressedSize := d.length % 4294967296
    extraField := []
    comment := []
    diskNumberStart := 0
    internalAttrs := 0
    externalAttrs := 0x81A40000
    localHeaderOffset := headerOffset }
  { w := zw.w ++ localBytes
    files := zw.files ++ [record]
    offset := zw.offset + 4 + 26 + name.length + d.length }

/-- `ZipWriter.AddFile`.  `data` is `none` for a nil slice and `some bytes`
for a present (possibly empty) buffer.  `now` stands for the `time.Now()`
sample taken during the call. -/
def AddFile (zw : ZipWriter) (name : List Nat) (data : Option (List Nat))
    (now : DateTime) : Except String ZipWriter :=
  if name = [] then .error "zip filename is empty"
  else if name.length > 65535 then .error "zip filename is too long (max 65535 bytes)"
  else
    match data with
    | none => .error "data cannot be nil"
    | some d => .ok (addFileSuccess zw name d now)

/-- The central directory record `Close` emits for one entry
(fixed fields, zero extra/comment lengths, then the name). -/
def centralBytesFor (f : FileRecord) : List Nat :=
  le32 CentralDirectorySignature ++ le16 f.versionMadeBy ++ le16 f.versionNeeded ++
  le16 f.flags ++ le16 f.compressionMethod ++ le16 f.modTime ++ le16 f.modDate ++
  le32 f.crc32 ++ le32 f.compressedSize ++ le32 f.uncompressedSize ++
  le16 f.name.length ++ le16 0 ++ le16 0 ++ le16 f.diskNumberStart ++
  le16 f.internalAttrs ++ le32 f.externalAttrs ++ le32 f.localHeaderOffset ++
  f.name

/-- `ZipWriter.Close`: emit one central directory record per accumulated
entry (advancing the offset by `4 + 42 + len(name)` each), then the
trailer.  The pure model cannot fail (the Go version only fails on sink
I/O errors). -/
def Close (zw : ZipWriter) : ZipWriter :=
  let centralDirOffset := zw.offset
  let zw1 := zw.files.foldl
    (fun acc f =>
      { acc with
        w := acc.w ++ centralBytesFor f
        offset := acc.offset + 4 + 42 + f.name.length })
    zw
  let centralDirSize := zw1.offset - centralDirOffset
  { zw1 with
    w := zw1.w ++
      (le32 EndOfCentralDirectorySignature ++ le16 0 ++ le16 0 ++
       le16 zw.files.length ++ le16 zw.files.length ++ le32 centralDirSize ++
       le32 centralDirOffset ++ le16 0) }

/-! ## Reader side -/

/-- The `binary.Read`-style read from the file (`io.ReadFull` semantics):
succeeds only when all `k` requested bytes exist at `off`. -/
def readFull (file : List Nat) (off k : Nat) : Option (List Nat) :=
  if off + k ≤ file.length then some ((file.drop off).take k) else none

/-- A single `os.File.Read` into a fresh zero-initialized buffer of size
`k`, cursor at `off`: errors only when `k > 0` and the cursor is at or
past EOF; otherwise returns the buffer contents (available bytes followed
by the untouched zero padding) and the new cursor.  The Go call sites
ignore the returned byte count. -/
def readRaw (file : List Nat) (off k : Nat) : Option (List Nat × Nat) :=
  if k = 0 then some ([], off)
  else if off < file.length then
    some ((file.drop off).take k ++ List.replicate (k - min k (file.length - off)) 0,
          off + min k (file.length - off))
  else none

/-- The 4 bytes `findEOCD` scans for (little-endian trailer signature). -/
def eocdSigBytes : List Nat := [0x50, 0x4b, 0x05, 0x06]

/-- Does `sig` occur in `buf` starting at index `i`? -/
def matchesAt (buf sig : List Nat) (i : Nat) : Bool :=
  (buf.drop i).take sig.length == sig

/-- Scan downward from index `m` for the last occurrence of `sig`. -/
def lastIndexAux (buf sig : List Nat) : Nat → Option Nat
  | 0 => if matchesAt buf sig 0 then some 0 else none
  | i + 1 => if matchesAt buf sig (i + 1) then some (i + 1) else lastIndexAux buf sig i

/-- `bytes.LastIndex buf sig` for non-empty `sig`: index of the last
occurrence, `none` when there is none (Go returns `-1`). -/
def bytesLastIndex (buf sig : List Nat) : Option Nat :=
  lastIndexAux buf sig buf.length

/-- `findEOCD`: bounded backward scan for the trailer signature.  Note the
source tests `sigPos > 0`, so both "not found" (`none`, Go `-1`) and an
occurrence at window position 0 take the error branch. -/
def findEOCD (file : List Nat) : Except String Nat :=
  let fileSize := file.length
  if fileSize < EOCDMinSize then .error "file too small"
  else
    let searchStart := fileSize - EOCDMinSize - 65535
    let buf := file.drop searchStart
    match bytesLastIndex buf eocdSigBytes with
    | some sigPos =>
      if sigPos > 0 then .ok (searchStart + sigPos)
      else .error "EOCD signature not found"
    | none => .error "EOCD signature not found"

/-- Trailer record (`EndOfCentralDirectory`). -/
structure EndOfCentralDirectory where
  diskNumber : Nat
  diskWithCDStart : Nat
  entriesOnDisk : Nat
  totalEntries : Nat
  centralDirSize : Nat
  centralDirOffset : Nat
  commentLength : Nat
  comment : List Nat
deriving DecidableEq

/-- `parseEOCD`: one raw read of 22 bytes at `offset` (count ignored, so a
short read near EOF leaves zero padding in the buffer), fields decoded
from the in-memory buffer after the 4 signature bytes, then the comment
read if its declared length is positive. -/
def parseEOCD (file : List Nat) (offset : Nat) : Except String EndOfCentralDirectory :=
  match readRaw file offset EOCDMinSize with
  | none => .error "read error"
  | some (buf, cur) =>
    let g := fun i => buf.getD i 0
    let commentLength := rd16 (g 20) (g 21)
    let base : EndOfCentralDirectory := {
      diskNumber := rd16 (g 4) (g 5)
      diskWithCDStart := rd16 (g 6) (g 7)
      entriesOnDisk := rd16 (g 8) (g 9)
      totalEntries := rd16 (g 10) (g 11)
      centralDirSize := rd32 (g 12) (g 13) (g 14) (g 15)
      centralDirOffset := rd32 (g 16) (g 17) (g 18) (g 19)
      commentLength := commentLength
      comment := [] }
    if commentLength > 0 then
      match readRaw file cur commentLength with
      | none => .error "read error"
      | some (cbuf, _) => .ok { base with comment := cbuf }
    else .ok base

/-- Central directory record (`CentralDirectoryHeader`). -/
structure CentralDirectoryHeader where
  versionMadeBy : Nat
  versionNeeded : Nat
  flags : Nat
  compressionMethod : Nat
  lastModTime : Nat
  lastModDate : Nat
  crc32 : Nat
  compressedSize : Nat
  uncompressedSize : Nat
  filenameLength : Nat
  extraFieldLength : Nat
  commentLength : Nat
  diskNumberStart : Nat
  internalAttributes : Nat
  externalAttributes : Nat
  localHeaderOffset : Nat
  filename : List Nat
  extraField : List Nat
  comment : List Nat
deriving DecidableEq

/-- `readCentralDirectoryEntry`: signature check, 42 fixed bytes, then the
three variable fields.  The next offset is computed from the three
`uint16` lengths summed in 16-bit arithmetic before widening to `int64`,
hence the `% 65536`. -/
def readCentralDirectoryEntry (file : List Nat) (offset : Nat) :
    Except String (CentralDirectoryHeader × Nat) :=
  match readFull file offset 4 with
  | none => .error "read error"
  | some sb =>
    if rd32 (sb.getD 0 0) (sb.getD 1 0) (sb.getD 2 0) (sb.getD 3 0) ≠
        CentralDirectorySignature then
      .error "invalid signature"
    else
      match readFull file (offset + 4) 42 with
      | none => .error "read error"
      | some fb =>
        let g := fun i => fb.getD i 0
        let filenameLength := rd16 (g 24) (g 25)
        let extraFieldLength := rd16 (g 26) (g 27)
        let commentLength := rd16 (g 28) (g 29)
        match readRaw file (offset + 46) filenameLength with
        | none => .error "read error"
        | some (nameBuf, c1) =>
          match readRaw file c1 extraFieldLength with
          | none => .error "read error"
          | some (extraBuf, c2) =>
            match readRaw file c2 commentLength with
            | none => .error "read error"
            | some (commentBuf, _) =>
              let cd : CentralDirectoryHeader := {
                versionMadeBy := rd16 (g 0) (g 1)
                versionNeeded := rd16 (g 2) (g 3)
                flags := rd16 (g 4) (g 5)
                compressionMethod := rd16 (g 6) (g 7)
                lastModTime := rd16 (g 8) (g 9)
                lastModDate := rd16 (g 10) (g 11)
                crc32 := rd32 (g 12) (g 13) (g 14) (g 15)
                compressedSize := rd32 (g 16) (g 17) (g 18) (g 19)
                uncompressedSize := rd32 (g 20) (g 21) (g 22) (g 23)
                filenameLength := filenameLength
                extraFieldLength := extraFieldLength
                commentLength := commentLength
                diskNumberStart := rd16 (g 30) (g 31)
                internalAttributes := rd16 (g 32) (g 33)
                externalAttributes := rd32 (g 34) (g 35) (g 36) (g 37)
                localHeaderOffset := rd32 (g 38) (g 39) (g 40) (g 41)
                filename := nameBuf
                extraField := extraBuf
                comment := commentBuf }
              .ok (cd, offset + 4 + 42 +
                ((filenameLength + extraFieldLength + commentLength) % 65536))

/-- Local entry record (`LocalFileHeader`). -/
structure LocalFileHeader where
  versionNeeded : Nat
  flags : Nat
  compressionMethod : Nat
  lastModTime : Nat
  lastModDate : Nat
  crc32 : Nat
  compressedSize : Nat
  uncompressedSize : Nat
  filenameLength : Nat
  extraFieldLength : Nat
  filename : List Nat
  extraField : List Nat
deriving DecidableEq

/-- `readLocalFileHeader`.  The signature read ignores its error (a failed
`binary.Read` leaves the variable at its zero value, which then fails the
signature comparison).  Returns the header and the data offset
`offset + 4 + 26 + uint16(filenameLength + extraFieldLength)`. -/
def readLocalFileHeader (file : List Nat) (offset : Nat) :
    Except String (LocalFileHeader × Nat) :=
  let signature := match readFull file offset 4 with
    | some sb => rd32 (sb.getD 0 0) (sb.getD 1 0) (sb.getD 2 0) (sb.getD 3 0)
    | none => 0
  if signature ≠ LocalFileHeaderSignature then
    .error "invalid local file header signature"
  else
    match readFull file (offset + 4) 26 with
    | none => .error "read error"
    | some fb =>
      let g := fun i => fb.getD i 0
      let filenameLength := rd16 (g 22) (g 23)
      let extraFieldLength := rd16 (g 24) (g 25)
      match readRaw file (offset + 30) filenameLength with
      | none => .error "read error"
      | some (nameBuf, c1) =>
        match readRaw file c1 extraFieldLength with
        | none => .error "read error"
        | some (extraBuf, _) =>
          let lh : LocalFileHeader := {
            versionNeeded := rd16 (g 0) (g 1)
            flags := rd16 (g 2) (g 3)
            compressionMethod := rd16 (g 4) (g 5)
            lastModTime := rd16 (g 6) (g 7)
            lastModDate := rd16 (g 8) (g 9)
            crc32 := rd32 (g 10) (g 11) (g 12) (g 13)
            compressedSize := rd32 (g 14) (g 15) (g 16) (g 17)
            uncompressedSize := rd32 (g 18) (g 19) (g 20) (g 21)
            filenameLength := filenameLength
            extraFieldLength := extraFieldLength
            filename := nameBuf
            extraField := extraBuf }
          .ok (lh, offset + 4 + 26 + ((filenameLength + extraFieldLength) % 65536))

/-- The size reconciliation step of `extractFile` (its only mutation of
the local header): when the local compressed size is zero and flag bit
`0x0008` is set, both sizes are taken from the central directory record. -/
def reconcile (lh : LocalFileHeader) (cd : CentralDirectoryHeader) : LocalFileHeader :=
  if lh.compressedSize = 0 ∧ lh.flags &&& 0x0008 ≠ 0 then
    { lh with compressedSize := cd.compressedSize
              uncompressedSize := cd.uncompressedSize }
  else lh

/-- `extractFile`, parameterized by the deflate collaborator `inflate`
(`flate.NewReader` + `io.ReadAll`): read the local header, reconcile
sizes, read the payload bytes, then dispatch on the compression method:
method 8 inflates and checks the decompressed length, everything else
returns the raw bytes. -/
def extractFile (inflate : List Nat → Except String (List Nat))
    (file : List Nat) (centralDir : CentralDirectoryHeader) :
    Except String (List Nat) :=
  match readLocalFileHeader file centralDir.localHeaderOffset with
  | .error e => .error e
  | .ok (lh0, dataOffset) =>
    let localHeader := reconcile lh0 centralDir
    match readRaw file dataOffset localHeader.compressedSize with
    | none => .error "read error"
    | some (compressedData, _) =>
      if localHeader.compressionMethod = 8 then
        match inflate compressedData with
        | .error e => .error e
        | .ok decompressed =>
          if decompressed.length ≠ localHeader.uncompressedSize then
            .error "size mismatch"
          else .ok decompressed
      else .ok compressedData

/-- The raw bytes of the name prefix `"__MACOSX/"` that `ReadZip` skips. -/
def macosxBytes : List Nat := [0x5F, 0x5F, 0x4D, 0x41, 0x43, 0x4F, 0x53, 0x58, 0x2F]

/-- `strings.HasPrefix s p`: the first `len p` bytes of `s` equal `p`. -/
def hasPfx (p s : List Nat) : Bool := s.take p.length == p

/-- Per-entry outcome of the `ReadZip` loop: the entry name, and `none`
when the entry was skipped (the `__MACOSX/` branch never calls
`extractFile`), otherwise the result of materializing it. -/
def readEntries (inflate : List Nat → Except String (List Nat)) (file : List Nat) :
    Nat → Nat → Except String (List (List Nat × Option (Except String (List Nat))))
  | _, 0 => .ok []
  | offset, count + 1 =>
    match readCentralDirectoryEntry file offset with
    | .error e => .error e
    | .ok (cd, nextOffset) =>
      let item := if hasPfx macosxBytes cd.filename
        then (cd.filename, none)
        else (cd.filename, some (extractFile inflate file cd))
      match readEntries inflate file nextOffset count with
      | .error e => .error e
      | .ok rest => .ok (item :: rest)

/-- `ReadZip`: locate and parse the trailer (aborting on failure, as the
driver panics there), then walk `totalEntries` directory records from the
directory offset. -/
def ReadZip (inflate : List Nat → Except String (List Nat)) (file : List Nat) :
    Except String (List (List Nat × Option (Except String (List Nat)))) :=
  match findEOCD file with
  | .error e => .error e
  | .ok pos =>
    match parseEOCD file pos with
    | .error e => .error e
    | .ok eocd => readEntries inflate file eocd.centralDirOffset eocd.totalEntries

/-! ## Concrete inputs used by the claim theorems -/

/-- A deflate collaborator stub for runs that never reach the deflate
branch. -/
def inflateStub : List Nat → Except String (List Nat) := fun _ => .error "no deflate"

/-- A fixed wall-clock sample (the timestamp of the repository's own
`TestTimeToMSDos`). -/
def sampleNow : DateTime := ⟨2023, 12, 25, 14, 30, 45⟩

/-- The archive `Close` emits for a writer with zero entries. -/
def emptyArchive : List Nat := (Close NewZipWriter).w

/-- Payload length for the round-trip failure: chosen so that the written
central directory offset `30 + 1 + N` equals `0x06054b50`, making the
trailer's directory-offset field spell the trailer signature. -/
def c1N : Nat := 101010225

/-- Round-trip failure payload: `c1N` zero bytes. -/
def c1payload : List Nat := List.replicate c1N 0

/-- Round-trip failure name: the single byte `"a"`. -/
def c1name : List Nat := [0x61]

/-- The writer after adding the adversarial entry. -/
def c1zipResult : Except String ZipWriter :=
  AddFile NewZipWriter c1name (some c1payload) sampleNow

/-- The finished adversarial archive. -/
def c1archive : List Nat :=
  match c1zipResult with
  | .ok zw => (Close zw).w
  | .error _ => []

/-- A 34-byte file holding one local entry record with compression method
12 (neither store nor deflate), name `"a"`, payload `[9, 9, 9]`. -/
def c3file : List Nat :=
  le32 LocalFileHeaderSignature ++ le16 20 ++ le16 0 ++ le16 12 ++ le16 0 ++
  le16 0 ++ le32 0 ++ le32 3 ++ le32 3 ++ le16 1 ++ le16 0 ++ [0x61] ++ [9, 9, 9]

/-- A central directory record pointing at the method-12 entry of
`c3file`. -/
def c3cd : CentralDirectoryHeader :=
  { versionMadeBy := 0x0314, versionNeeded := 20, flags := 0,
    compressionMethod := 12, lastModTime := 0, lastModDate := 0, crc32 := 0,
    compressedSize := 3, uncompressedSize := 3, filenameLength := 1,
    extraFieldLength := 0, commentLength := 0, diskNumberStart := 0,
    internalAttributes := 0, externalAttributes := 0, localHeaderOffset := 0,
    filename := [0x61], extraField := [], comment := [] }

/-- A 33-byte file holding one stored (method 0) entry, name `"b"`,
payload `[1, 2]`. -/
def c3storeFile : List Nat :=
  le32 LocalFileHeaderSignature ++ le16 20 ++ le16 0 ++ le16 0 ++ le16 0 ++
  le16 0 ++ le32 0 ++ le32 2 ++ le32 2 ++ le16 1 ++ le16 0 ++ [0x62] ++ [1, 2]

/-- A central directory record pointing at the stored entry of
`c3storeFile`. -/
def c3storeCd : CentralDirectoryHeader :=
  { versionMadeBy := 0x0314, versionNeeded := 20, flags := 0,
    compressionMethod := 0, lastModTime := 0, lastModDate := 0, crc32 := 0,
    compressedSize := 2, uncompressedSize := 2, filenameLength := 1,
    extraFieldLength := 0, commentLength := 0, diskNumberStart := 0,
    internalAttributes := 0, externalAttributes := 0, localHeaderOffset := 0,
    filename := [0x62], extraField := [], comment := [] }

/-- The local header `readLocalFileHeader` decodes from `c3storeFile`. -/
def c3storeLh : LocalFileHeader :=
  { versionNeeded := 20, flags := 0, compressionMethod := 0, lastModTime := 0,
    lastModDate := 0, crc32 := 0, compressedSize := 2, uncompressedSize := 2,
    filenameLength := 1, extraFieldLength := 0, filename := [0x62],
    extraField := [] }

/-- An archive holding one structurally valid entry named exactly
`"__MACOSX/"` with payload `[7]`. -/
def c9archive : List Nat :=
  match AddFile NewZipWriter macosxBytes (some [7]) sampleNow with
  | .ok zw => (Close zw).w
  | .error _ => []

/-- Repeated `AddFile` calls: name, payload and the wall-clock sample of
each call. -/
def addAll (zw : ZipWriter) : List (List Nat × List Nat × DateTime) →
    Except String ZipWriter
  | [] => .ok zw
  | it :: rest =>
    match AddFile zw it.1 (some it.2.1) it.2.2 with
    | .error e => .error e
    | .ok zw2 => addAll zw2 rest

/-- The byte cost of one entry: 4-byte signature + 26-byte fixed local
header + name + payload. -/
def entrySize (it : List Nat × List Nat × DateTime) : Nat :=
  30 + it.1.length + it.2.1.length

/-- Local-record offsets of a run of entries starting at offset `o`: each
entry sits at the running total of the sizes before it. -/
def offsetsFrom (o : Nat) : List (List Nat × List Nat × DateTime) → List Nat
  | [] => []
  | it :: rest => o :: offsetsFrom (o + entrySize it) rest

/-- The 46 fixed bytes (signature + 42-byte fixed part) of a central
directory record declaring filename length 65535, extra-field length 1,
comment length 0 and all other fields 0. -/
def c5fixed46 : List Nat :=
  [80, 75, 1, 2, 0,0, 0,0, 0,0, 0,0, 0,0, 0,0, 0,0,0,0, 0,0,0,0, 0,0,0,0,
   255,255, 1,0, 0,0, 0,0, 0,0, 0,0,0,0, 0,0,0,0]

/-- The 42-byte fixed part of `c5fixed46` (what `readFull` returns for
it). -/
def c5fb : List Nat :=
  [0,0, 0,0, 0,0, 0,0, 0,0, 0,0, 0,0,0,0, 0,0,0,0, 0,0,0,0,
   255,255, 1,0, 0,0, 0,0, 0,0, 0,0,0,0, 0,0,0,0]

/-- A 65582-byte file: the record of `c5fixed46` followed by its 65535
name bytes and 1 extra-field byte (all zero). -/
def c5file : List Nat := c5fixed46 ++ List.replicate 65536 0

/-- The header `readCentralDirectoryEntry` decodes from `c5file`. -/
def c5cd : CentralDirectoryHeader :=
  { versionMadeBy := 0, versionNeeded := 0, flags := 0, compressionMethod := 0,
    lastModTime := 0, lastModDate := 0, crc32 := 0, compressedSize := 0,
    uncompressedSize := 0, filenameLength := 65535, extraFieldLength := 1,
    commentLength := 0, diskNumberStart := 0, internalAttributes := 0,
    externalAttributes := 0, localHeaderOffset := 0,
    filename := List.replicate 65535 0, extraField := [0], comment := [] }

/-- Two concrete `AddFile` calls for the C10 witness. -/
def c10items : List (List Nat × List Nat × DateTime) :=
  [([0x61], [1, 2], sampleNow), ([0x62], [], sampleNow)]

/-- The writer state after the two calls of `c10items`. -/
def c10zw : ZipWriter := (addAll NewZipWriter c10items).toOption.getD NewZipWriter

end GoZip

/-! ## Theorems -/

namespace GoZip

/-- Taking from a concatenation stays in the left part when it is long
enough. -/
theorem take_append_left {α : Type} {A B : List α} {n : Nat} (h : n ≤ A.length) :
    (A ++ B).take n = A.take n := by
  rw [List.take_append_eq_append_take, Nat.sub_eq_zero_of_le h, List.take_zero,
    List.append_nil]

/-- Dropping within the left part of a concatenation. -/
theorem drop_append_left {α : Type} {A B : List α} {n : Nat} (h : n ≤ A.length) :
    (A ++ B).drop n = A.drop n ++ B := by
  rw [List.drop_append_eq_append_drop, Nat.sub_eq_zero_of_le h, List.drop_zero]

/-- Dropping past the left part of a concatenation. -/
theorem drop_append_right {α : Type} {A B : List α} {n : Nat} (h : A.length ≤ n) :
    (A ++ B).drop n = B.drop (n - A.length) := by
  rw [List.drop_append_eq_append_drop, List.drop_eq_nil_of_le h, List.nil_append]

/-- Symbolic evaluation of `readCentralDirectoryEntry`: given the outcome
of each of its five reads and a matching signature, the parse succeeds
with the decoded header, and the next offset adds the three variable
lengths reduced mod 2^16. -/
theorem readCDE_eval (file : List Nat) (offset : Nat)
    (sb fb nb xb cb : List Nat) (k1 k2 k3 : Nat)
    (hsb : readFull file offset 4 = some sb)
    (hsig : rd32 (sb.getD 0 0) (sb.getD 1 0) (sb.getD 2 0) (sb.getD 3 0) =
      CentralDirectorySignature)
    (hfb : readFull file (offset + 4) 42 = some fb)
    (hnb : readRaw file (offset + 46) (rd16 (fb.getD 24 0) (fb.getD 25 0)) =
      some (nb, k1))
    (hxb : readRaw file k1 (rd16 (fb.getD 26 0) (fb.getD 27 0)) = some (xb, k2))
    (hcb : readRaw file k2 (rd16 (fb.getD 28 0) (fb.getD 29 0)) = some (cb, k3)) :
    readCentralDirectoryEntry file offset = Except.ok
      ({ versionMadeBy := rd16 (fb.getD 0 0) (fb.getD 1 0)
         versionNeeded := rd16 (fb.getD 2 0) (fb.getD 3 0)
         flags := rd16 (fb.getD 4 0) (fb.getD 5 0)
         compressionMethod := rd16 (fb.getD 6 0) (fb.getD 7 0)
         lastModTime := rd16 (fb.getD 8 0) (fb.getD 9 0)
         lastModDate := rd16 (fb.getD 10 0) (fb.getD 11 0)
         crc32 := rd32 (fb.getD 12 0) (fb.getD 13 0) (fb.getD 14 0) (fb.getD 15 0)
         compressedSize := rd32 (fb.getD 16 0) (fb.getD 17 0) (fb.getD 18 0) (fb.getD 19 0)
         uncompressedSize := rd32 (fb.getD 20 0) (fb.getD 21 0) (fb.getD 22 0) (fb.getD 23 0)
         filenameLength := rd16 (fb.getD 24 0) (fb.getD 25 0)
         extraFieldLength := rd16 (fb.getD 26 0) (fb.getD 27 0)
         commentLength := rd16 (fb.getD 28 0) (fb.getD 29 0)
         diskNumberStart := rd16 (fb.getD 30 0) (fb.getD 31 0)
         internalAttributes := rd16 (fb.getD 32 0) (fb.getD 33 0)
         externalAttributes := rd32 (fb.getD 34 0) (fb.getD 35 0) (fb.getD 36 0) (fb.getD 37 0)
         localHeaderOffset := rd32 (fb.getD 38 0) (fb.getD 39 0) (fb.getD 40 0) (fb.getD 41 0)
         filename := nb
         extraField := xb
         comment := cb },
       offset + 4 + 42 + ((rd16 (fb.getD 24 0) (fb.getD 25 0) +
         rd16 (fb.getD 26 0) (fb.getD 27 0) + rd16 (fb.getD 28 0) (fb.getD 29 0)) % 65536)) := by
  simp only [readCentralDirectoryEntry, hsb, hfb, hnb, hxb, hcb, hsig]
  simp

/-- Disjoint bit-or is addition: `a <<< k ||| b = a * 2^k + b` for `b < 2^k`. -/
theorem shiftLeft_lor_small {b k : Nat} (a : Nat) (h : b < 2 ^ k) :
    a <<< k ||| b = a * 2 ^ k + b := by
  rw [Nat.shiftLeft_eq, Nat.mul_comm, ← Nat.mul_add_lt_is_or h, Nat.mul_comm]

/-- C4 (amended): the packed date word is `((year-1980) clamped at 0,
reduced mod 128)` in the top 7 bits, month in the next 4, day in the low
5; the packed time word is hour in the top 5 bits, minute in the next 6,
`seconds/2` in the low 5.  Exact (no reduction) for years 1980–2107. -/
theorem timeToMSDos_packs (t : DateTime)
    (hm1 : 1 ≤ t.month) (hm : t.month ≤ 12) (hd1 : 1 ≤ t.day) (hd : t.day ≤ 31)
    (hh : t.hour < 24) (hmin : t.minute < 60) (hs : t.second < 60) :
    (timeToMSDos t).2 = ((if t.year < 1980 then 0 else t.year - 1980) % 128) * 512 +
        t.month * 32 + t.day ∧
    (timeToMSDos t).1 = t.hour * 2048 + t.minute * 32 + t.second / 2 ∧
    (timeToMSDos t).2 >>> 9 = (if t.year < 1980 then 0 else t.year - 1980) % 128 ∧
    (timeToMSDos t).2 >>> 5 &&& 15 = t.month ∧
    (timeToMSDos t).2 &&& 31 = t.day ∧
    (timeToMSDos t).1 >>> 11 = t.hour ∧
    (timeToMSDos t).1 >>> 5 &&& 63 = t.minute ∧
    (timeToMSDos t).1 &&& 31 = t.second / 2 := by
  have hdate : (timeToMSDos t).2 =
      ((if t.year < 1980 then 0 else t.year - 1980) % 128) * 512 + t.month * 32 + t.day := by
    show ((if t.year < 1980 then 0 else t.year - 1980) <<< 9 ||| t.month <<< 5 ||| t.day)
        % 65536 = _
    rw [Nat.lor_assoc, shiftLeft_lor_small t.month (show t.day < 2 ^ 5 by omega),
      shiftLeft_lor_small _ (show t.month * 2 ^ 5 + t.day < 2 ^ 9 by omega)]
    omega
  have htime : (timeToMSDos t).1 = t.hour * 2048 + t.minute * 32 + t.second / 2 := by
    show ((t.hour <<< 11 ||| t.minute <<< 5 ||| t.second / 2)) % 65536 = _
    rw [Nat.lor_assoc, shiftLeft_lor_small t.minute (show t.second / 2 < 2 ^ 5 by omega),
      shiftLeft_lor_small _ (show t.minute * 2 ^ 5 + t.second / 2 < 2 ^ 11 by omega)]
    omega
  refine ⟨hdate, htime, ?_, ?_, ?_, ?_, ?_, ?_⟩ <;>
    (try rw [Nat.shiftRight_eq_div_pow]) <;>
    first
      | (rw [show (15 : Nat) = 2 ^ 4 - 1 by norm_num, Nat.and_pow_two_sub_one_eq_mod]
         rw [hdate]; omega)
      | (rw [show (31 : Nat) = 2 ^ 5 - 1 by norm_num, Nat.and_pow_two_sub_one_eq_mod]
         first | (rw [hdate]; omega) | (rw [htime]; omega))
      | (rw [show (63 : Nat) = 2 ^ 6 - 1 by norm_num, Nat.and_pow_two_sub_one_eq_mod]
         rw [htime]; omega)
      | (rw [hdate]; omega)
      | (rw [htime]; omega)

/-- Witness for `timeToMSDos_packs` at the repository's own test
timestamp, 2023-12-25 14:30:45. -/
theorem timeToMSDos_packs_witness :
    (timeToMSDos sampleNow).2 = (43 % 128) * 512 + 12 * 32 + 25 ∧
    (timeToMSDos sampleNow).1 = 14 * 2048 + 30 * 32 + 45 / 2 ∧
    (timeToMSDos sampleNow).2 >>> 9 = 43 % 128 ∧
    (timeToMSDos sampleNow).2 >>> 5 &&& 15 = 12 ∧
    (timeToMSDos sampleNow).2 &&& 31 = 25 ∧
    (timeToMSDos sampleNow).1 >>> 11 = 14 ∧
    (timeToMSDos sampleNow).1 >>> 5 &&& 63 = 30 ∧
    (timeToMSDos sampleNow).1 &&& 31 = 45 / 2 :=
  timeToMSDos_packs sampleNow (by decide) (by decide) (by decide) (by decide)
    (by decide) (by decide) (by decide)

/-- C4 counterexample: for the year 2108 the date word's top 7 bits are 0,
not `2108 - 1980 = 128` — the year field wraps mod 128 instead of holding
`year - 1980`. -/
theorem timeToMSDos_year_overflow :
    (timeToMSDos ⟨2108, 1, 1, 0, 0, 0⟩).2 >>> 9 ≠ 2108 - 1980 := by decide

/-- C6: `AddFile` fails exactly on an empty name, a name longer than
65535 bytes, or an absent (`nil`) payload; and a present-but-empty payload
yields a record with both sizes 0. -/
theorem addFile_validation :
    (∀ zw name data now, (∃ e, AddFile zw name data now = Except.error e) ↔
      (name = [] ∨ name.length > 65535 ∨ data = none)) ∧
    (∀ zw name now, name ≠ [] → name.length ≤ 65535 →
      ∃ zw2, AddFile zw name (some []) now = Except.ok zw2 ∧
        ∃ r, zw2.files = zw.files ++ [r] ∧
          r.compressedSize = 0 ∧ r.uncompressedSize = 0) := by
  constructor
  · intro zw name data now
    unfold AddFile
    by_cases h1 : name = [] <;> simp [h1]
    by_cases h2 : name.length > 65535 <;> simp [h2]
    cases data <;> simp
  · intro zw name now h1 h2
    unfold AddFile
    rw [if_neg h1, if_neg (by omega)]
    exact ⟨_, rfl, _, rfl, rfl, rfl⟩

/-- Witness for `addFile_validation`: adding the 1-byte name `"a"` with an
empty-but-present payload succeeds with a zero-size record. -/
theorem addFile_validation_witness :
    ∃ zw2, AddFile NewZipWriter [0x61] (some []) sampleNow = Except.ok zw2 ∧
      ∃ r, zw2.files = NewZipWriter.files ++ [r] ∧
        r.compressedSize = 0 ∧ r.uncompressedSize = 0 :=
  addFile_validation.2 NewZipWriter [0x61] sampleNow (by decide) (by decide)

/-- C8: the reconciliation step overrides the two size fields with the
directory record's values exactly when the local compressed size is 0 and
flag bit `0x0008` is set; otherwise the header is returned unchanged; and
no field other than the two sizes is ever altered. -/
theorem reconcile_spec (lh : LocalFileHeader) (cd : CentralDirectoryHeader) :
    ((reconcile lh cd).versionNeeded = lh.versionNeeded ∧
     (reconcile lh cd).flags = lh.flags ∧
     (reconcile lh cd).compressionMethod = lh.compressionMethod ∧
     (reconcile lh cd).lastModTime = lh.lastModTime ∧
     (reconcile lh cd).lastModDate = lh.lastModDate ∧
     (reconcile lh cd).crc32 = lh.crc32 ∧
     (reconcile lh cd).filenameLength = lh.filenameLength ∧
     (reconcile lh cd).extraFieldLength = lh.extraFieldLength ∧
     (reconcile lh cd).filename = lh.filename ∧
     (reconcile lh cd).extraField = lh.extraField) ∧
    (lh.compressedSize = 0 ∧ lh.flags &&& 0x0008 ≠ 0 →
      (reconcile lh cd).compressedSize = cd.compressedSize ∧
      (reconcile lh cd).uncompressedSize = cd.uncompressedSize) ∧
    (¬(lh.compressedSize = 0 ∧ lh.flags &&& 0x0008 ≠ 0) →
      reconcile lh cd = lh) := by
  unfold reconcile
  by_cases h : lh.compressedSize = 0 ∧ lh.flags &&& 0x0008 ≠ 0 <;>
    simp [h]

/-- Witness for `reconcile_spec`: a streamed local header (size 0, flag
bit 3 set) takes both sizes from the directory record. -/
theorem reconcile_spec_witness :
    (reconcile ⟨20, 8, 0, 0, 0, 0, 0, 0, 0, 0, [], []⟩
        ⟨0, 20, 8, 0, 0, 0, 0, 5, 9, 0, 0, 0, 0, 0, 0, 0, [], [], []⟩).compressedSize = 5 ∧
    (reconcile ⟨20, 8, 0, 0, 0, 0, 0, 0, 0, 0, [], []⟩
        ⟨0, 20, 8, 0, 0, 0, 0, 5, 9, 0, 0, 0, 0, 0, 0, 0, [], [], []⟩).uncompressedSize = 9 :=
  (reconcile_spec ⟨20, 8, 0, 0, 0, 0, 0, 0, 0, 0, [], []⟩
      ⟨0, 20, 8, 0, 0, 0, 0, 5, 9, 0, 0, 0, 0, 0, 0, 0, [], [], []⟩).2.1 (by decide)

/-- C2: the zero-entry archive emitted by `Close` is 22 bytes whose
backward-scan window contains the trailer signature at window position 0,
yet `findEOCD` reports "EOCD signature not found" — the `sigPos > 0` test
conflates position 0 with Go's `-1` "not found" sentinel, so the empty
archive the writer produces does not parse. -/
theorem findEOCD_empty_archive_bug :
    emptyArchive.length = 22 ∧
    bytesLastIndex emptyArchive eocdSigBytes = some 0 ∧
    findEOCD emptyArchive = Except.error "EOCD signature not found" :=
  ⟨rfl, rfl, rfl⟩

/-- C7: for the accepted non-UTF-8 name `[0xFF]`, the flags word written
in the local header (bytes 6–7 of the sink) is 0, but the in-memory record
— and hence the central directory record `Close` writes (bytes 8–9 of the
record at offset 31) — carries the hard-coded flags `0x0800`: the UTF-8
bit is set in the central record despite the invalid name, and the two
records disagree. -/
theorem addFile_utf8_flag_bug :
    validUTF8 [0xFF] = false ∧
    ((AddFile NewZipWriter [0xFF] (some []) sampleNow).toOption.map fun zw =>
      (rd16 (zw.w.getD 6 0) (zw.w.getD 7 0),
       zw.files.map fun f => f.flags,
       rd16 ((Close zw).w.getD 39 0) ((Close zw).w.getD 40 0))) =
      some (0, [0x0800], 0x0800) := by decide

/-- C3 counterexample: an entry whose compression method is 12 (neither
store nor deflate) is materialized as its raw payload bytes — no
`UnsupportedFeature` failure exists in the code, which only distinguishes
method 8 from everything else. -/
theorem extractFile_unknown_method :
    (readLocalFileHeader c3file c3cd.localHeaderOffset).toOption.map
        (fun p => p.1.compressionMethod) = some 12 ∧
    extractFile inflateStub c3file c3cd = Except.ok [9, 9, 9] :=
  ⟨rfl, rfl⟩

/-- C3 (amended): the materializer's dispatch is two-way, not three-way:
once the local header is read and reconciled and the payload bytes read,
any method other than 8 (store included, unknown codes included) returns
the raw bytes unchanged, and method 8 runs the deflate collaborator,
failing with the size-mismatch error exactly when the decompressed length
differs from the declared uncompressed size. -/
theorem extractFile_dispatch
    (inflate : List Nat → Except String (List Nat)) (file : List Nat)
    (cd : CentralDirectoryHeader) (lh : LocalFileHeader) (dOff : Nat)
    (h : readLocalFileHeader file cd.localHeaderOffset = Except.ok (lh, dOff))
    (bytes : List Nat) (cur : Nat)
    (hr : readRaw file dOff (reconcile lh cd).compressedSize = some (bytes, cur)) :
    ((reconcile lh cd).compressionMethod ≠ 8 →
      extractFile inflate file cd = Except.ok bytes) ∧
    ((reconcile lh cd).compressionMethod = 8 →
      (∀ e, inflate bytes = Except.error e →
        extractFile inflate file cd = Except.error e) ∧
      (∀ dec, inflate bytes = Except.ok dec →
        (dec.length ≠ (reconcile lh cd).uncompressedSize →
          extractFile inflate file cd = Except.error "size mismatch") ∧
        (dec.length = (reconcile lh cd).uncompressedSize →
          extractFile inflate file cd = Except.ok dec))) := by
  unfold extractFile
  rw [h]
  simp only [hr]
  constructor
  · intro hne
    rw [if_neg hne]
  · intro heq
    rw [if_pos heq]
    constructor
    · intro e he
      rw [he]
    · intro dec hdec
      rw [hdec]
      constructor
      · intro hlen
        show (if dec.length ≠ (reconcile lh cd).uncompressedSize then
            (Except.error "size mismatch" : Except String (List Nat))
          else Except.ok dec) = Except.error "size mismatch"
        rw [if_pos hlen]
      · intro hlen
        show (if dec.length ≠ (reconcile lh cd).uncompressedSize then
            (Except.error "size mismatch" : Except String (List Nat))
          else Except.ok dec) = Except.ok dec
        rw [if_neg (by simp [hlen])]

/-- Witness for `extractFile_dispatch`: the stored (method 0) entry of
`c3storeFile` comes back as its raw payload. -/
theorem extractFile_dispatch_witness :
    extractFile inflateStub c3storeFile c3storeCd = Except.ok [1, 2] :=
  (extractFile_dispatch inflateStub c3storeFile c3storeCd c3storeLh 31 rfl
      [1, 2] 33 rfl).1 (by decide)

/-- In each successful enumeration round, an entry whose name starts with
`"__MACOSX/"` is recorded with outcome `none`: `extractFile` is never
invoked for it. -/
theorem readEntries_skips_macosx (inflate : List Nat → Except String (List Nat))
    (file : List Nat) :
    ∀ count offset res, readEntries inflate file offset count = Except.ok res →
      ∀ nm out, (nm, out) ∈ res → hasPfx macosxBytes nm = true → out = none := by
  intro count
  induction count with
  | zero =>
    intro offset res h nm out hmem _
    simp only [readEntries] at h
    cases h
    simp at hmem
  | succ k ih =>
    intro offset res h nm out hmem hpfx
    simp only [readEntries] at h
    cases hcd : readCentralDirectoryEntry file offset with
    | error e => rw [hcd] at h; exact absurd h (by simp)
    | ok p =>
      obtain ⟨cd, nxt⟩ := p
      rw [hcd] at h
      have h2 : (match readEntries inflate file nxt k with
          | Except.error e => Except.error e
          | Except.ok rest =>
            Except.ok ((if hasPfx macosxBytes cd.filename = true
              then (cd.filename, none)
              else (cd.filename, some (extractFile inflate file cd))) :: rest)) =
          Except.ok res := h
      cases hrest : readEntries inflate file nxt k with
      | error e => rw [hrest] at h2; exact absurd h2 (by simp)
      | ok rest =>
        rw [hrest] at h2
        have h3 : (if hasPfx macosxBytes cd.filename = true
            then (cd.filename, (none : Option (Except String (List Nat))))
            else (cd.filename, some (extractFile inflate file cd))) :: rest = res :=
          (Except.ok.injEq _ _).mp h2
        rcases List.mem_cons.mp (h3 ▸ hmem) with hhead | htail
        · by_cases hskip : hasPfx macosxBytes cd.filename = true
          · rw [if_pos hskip] at hhead
            have : out = (cd.filename, (none : Option (Except String (List Nat)))).2 :=
              congrArg Prod.snd hhead
            simpa using this
          · rw [if_neg hskip] at hhead
            have h4 : nm = cd.filename := congrArg Prod.fst hhead
            exact absurd (h4 ▸ hpfx) hskip
        · exact ih nxt rest hrest nm out htail hpfx

/-- C9: the enumeration entry point `ReadZip` silently skips every entry
whose name begins with `"__MACOSX/"`: whenever enumeration succeeds, such
entries appear with outcome `none` — they are never materialized and no
payload bytes are produced for them. -/
theorem readZip_skips_macosx (inflate : List Nat → Except String (List Nat))
    (file : List Nat) (res : List (List Nat × Option (Except String (List Nat))))
    (h : ReadZip inflate file = Except.ok res) :
    ∀ nm out, (nm, out) ∈ res → hasPfx macosxBytes nm = true → out = none := by
  unfold ReadZip at h
  cases hf : findEOCD file with
  | error e => rw [hf] at h; exact absurd h (by simp)
  | ok pos =>
    rw [hf] at h
    have h2 : (match parseEOCD file pos with
        | Except.error e => Except.error e
        | Except.ok eocd =>
          readEntries inflate file eocd.centralDirOffset eocd.totalEntries) =
        Except.ok res := h
    cases hp : parseEOCD file pos with
    | error e => rw [hp] at h2; exact absurd h2 (by simp)
    | ok eocd =>
      rw [hp] at h2
      exact readEntries_skips_macosx inflate file eocd.totalEntries
        eocd.centralDirOffset res h2

/-- Witness for `readZip_skips_macosx` on the concrete `c9archive`: its
single `"__MACOSX/"` entry enumerates with no materialization. -/
theorem readZip_skips_macosx_witness :
    ReadZip inflateStub c9archive = Except.ok [(macosxBytes, none)] ∧
    (macosxBytes, (none : Option (Except String (List Nat)))) ∈
      [(macosxBytes, (none : Option (Except String (List Nat))))] ∧
    hasPfx macosxBytes macosxBytes = true ∧
    (none : Option (Except String (List Nat))) = none :=
  ⟨rfl, by simp, by decide,
    readZip_skips_macosx inflateStub c9archive [(macosxBytes, none)] rfl
      macosxBytes none (by simp) (by decide)⟩

/-- `addAll` invariant: a successful run advances the offset by the total
entry size and appends records whose local-header offsets are the running
totals starting at the initial offset. -/
theorem addAll_invariant :
    ∀ items zw zw2, addAll zw items = Except.ok zw2 →
      zw2.offset = zw.offset + (items.map entrySize).sum ∧
      zw2.files.map (fun f => f.localHeaderOffset) =
        zw.files.map (fun f => f.localHeaderOffset) ++ offsetsFrom zw.offset items := by
  intro items
  induction items with
  | nil =>
    intro zw zw2 h
    cases h
    simp [offsetsFrom]
  | cons it rest ih =>
    intro zw zw2 h
    simp only [addAll] at h
    cases hadd : AddFile zw it.1 (some it.2.1) it.2.2 with
    | error e => rw [hadd] at h; exact absurd h (by simp)
    | ok zwMid =>
      rw [hadd] at h
      have h2 : addAll zwMid rest = Except.ok zw2 := h
      unfold AddFile at hadd
      by_cases h1 : it.1 = []
      · rw [if_pos h1] at hadd; exact absurd hadd (by simp)
      · rw [if_neg h1] at hadd
        by_cases hlen : it.1.length > 65535
        · rw [if_pos hlen] at hadd; exact absurd hadd (by simp)
        · rw [if_neg hlen] at hadd
          have hadd2 : Except.ok (addFileSuccess zw it.1 it.2.1 it.2.2) =
              Except.ok zwMid := hadd
          have hmid := (Except.ok.injEq _ _).mp hadd2
          obtain ⟨ho, hm⟩ := ih zwMid zw2 h2
          subst hmid
          have hoff : (addFileSuccess zw it.1 it.2.1 it.2.2).offset =
              zw.offset + entrySize it := by
            show zw.offset + 4 + 26 + it.1.length + it.2.1.length = _
            unfold entrySize
            omega
          have hfl : ∃ r : FileRecord, r.localHeaderOffset = zw.offset ∧
              (addFileSuccess zw it.1 it.2.1 it.2.2).files = zw.files ++ [r] :=
            ⟨_, rfl, rfl⟩
          obtain ⟨r, hr1, hr2⟩ := hfl
          refine ⟨?_, ?_⟩
          · rw [ho, hoff]
            simp only [List.map_cons, List.sum_cons]
            omega
          · rw [hm, hr2, hoff]
            simp only [offsetsFrom, List.map_append, List.map_cons, List.map_nil,
              List.append_assoc, List.singleton_append, hr1]

/-- The running-total offsets are strictly increasing. -/
theorem offsetsFrom_chain :
    ∀ items o, List.Chain' (· < ·) (offsetsFrom o items) := by
  intro items
  induction items with
  | nil => intro o; simp [offsetsFrom]
  | cons it rest ih =>
    intro o
    simp only [offsetsFrom]
    cases rest with
    | nil => simp [offsetsFrom]
    | cons it2 rest2 =>
      refine List.chain'_cons.mpr ⟨?_, ih (o + entrySize it)⟩
      unfold entrySize
      omega

/-- The i-th running-total offset is the total size of the first i
entries. -/
theorem offsetsFrom_getD :
    ∀ items o i, i < items.length →
      (offsetsFrom o items).getD i 0 = o + ((items.take i).map entrySize).sum := by
  intro items
  induction items with
  | nil => intro o i hi; simp at hi
  | cons it rest ih =>
    intro o i hi
    cases i with
    | zero => simp [offsetsFrom]
    | succ j =>
      simp only [offsetsFrom, List.getD_cons_succ, List.take_succ_cons,
        List.map_cons, List.sum_cons]
      rw [ih (o + entrySize it) j (by simpa using hi)]
      omega

/-- C10: after any successful run of `AddFile` calls from a fresh writer,
the running offset equals the sum over all entries of
`30 + |name| + |payload|`; each record's local-header offset equals the
total size of the entries added before it; and the recorded offsets are
strictly increasing in addition order. -/
theorem addAll_offsets (items : List (List Nat × List Nat × DateTime))
    (zw2 : ZipWriter) (h : addAll NewZipWriter items = Except.ok zw2) :
    zw2.offset = (items.map entrySize).sum ∧
    (∀ i, i < items.length →
      (zw2.files.map (fun f => f.localHeaderOffset)).getD i 0 =
        ((items.take i).map entrySize).sum) ∧
    List.Chain' (· < ·) (zw2.files.map (fun f => f.localHeaderOffset)) := by
  obtain ⟨ho, hm⟩ := addAll_invariant items NewZipWriter zw2 h
  have hm2 : zw2.files.map (fun f => f.localHeaderOffset) = offsetsFrom 0 items := by
    rw [hm]; rfl
  refine ⟨by simpa [NewZipWriter] using ho, ?_, ?_⟩
  · intro i hi
    rw [hm2]
    simpa using offsetsFrom_getD items 0 i hi
  · rw [hm2]
    exact offsetsFrom_chain items 0

/-- Witness for `addAll_offsets`: two concrete entries, offsets 0 and 33,
final offset 64. -/
theorem addAll_offsets_witness :
    c10zw.offset = (c10items.map entrySize).sum ∧
    (∀ i, i < c10items.length →
      (c10zw.files.map (fun f => f.localHeaderOffset)).getD i 0 =
        ((c10items.take i).map entrySize).sum) ∧
    List.Chain' (· < ·) (c10zw.files.map (fun f => f.localHeaderOffset)) :=
  addAll_offsets c10items c10zw rfl

/-! ### C5: the next-offset computation of the central directory reader -/

theorem c5_len : c5file.length = 65582 := by
  rw [c5file, List.length_append, List.length_replicate]
  rfl

theorem c5_hsb : readFull c5file 0 4 = some [80, 75, 1, 2] := by
  rw [readFull, if_pos (by rw [c5_len]; omega), List.drop_zero, c5file,
    take_append_left (by decide)]
  rfl

theorem c5_hfb : readFull c5file (0 + 4) 42 = some c5fb := by
  rw [readFull, if_pos (by rw [c5_len]; omega), c5file,
    drop_append_left (by decide), take_append_left (by decide)]
  rfl

theorem c5_drop46 : c5file.drop 46 = List.replicate 65536 0 := by
  rw [c5file, drop_append_right (by decide)]
  rfl

theorem c5_hnb : readRaw c5file 46 65535 = some (List.replicate 65535 0, 65581) := by
  rw [readRaw, if_neg (by decide), if_pos (by rw [c5_len]; omega), c5_len]
  rw [c5_drop46, List.take_replicate]
  norm_num

theorem c5_hxb : readRaw c5file 65581 1 = some ([0], 65582) := by
  have hd : c5file.drop 65581 = [0] := by
    rw [c5file, drop_append_right (by decide), List.drop_replicate]
    rfl
  rw [readRaw, if_neg (by decide), if_pos (by rw [c5_len]; omega), c5_len, hd]
  norm_num

theorem c5_hcb : readRaw c5file 65582 0 = some ([], 65582) := rfl

/-- C5 counterexample: a record declaring filename length 65535,
extra-field length 1, comment length 0 parses successfully, but the next
offset comes back as `46`, not `0 + 4 + 42 + 65535 + 1 + 0 = 65582`: the
three `uint16` lengths are summed in 16-bit arithmetic (65536 wraps to 0)
before the widening to `int64`. -/
theorem readCDE_nextOffset_wraps :
    readCentralDirectoryEntry c5file 0 = Except.ok (c5cd, 46) ∧
    c5cd.filenameLength = 65535 ∧ c5cd.extraFieldLength = 1 ∧
    c5cd.commentLength = 0 ∧ (46 : Nat) ≠ 0 + 4 + 42 + (65535 + 1 + 0) := by
  refine ⟨?_, rfl, rfl, rfl, by decide⟩
  have h := readCDE_eval c5file 0 [80, 75, 1, 2] c5fb (List.replicate 65535 0) [0] []
    65581 65582 65582 c5_hsb (by decide) c5_hfb c5_hnb c5_hxb c5_hcb
  exact h.trans (by rfl)

/-- C5 (amended): for every successfully parsed central directory record,
the next record's offset is `o + 4 + 42 + ((f + x + c) mod 2^16)` — the
three decoded variable lengths are added as `uint16`s, so a sum of 65536
or more wraps around before being added to the 64-bit offset. -/
theorem readCDE_nextOffset (file : List Nat) (offset : Nat)
    (cd : CentralDirectoryHeader) (next : Nat)
    (h : readCentralDirectoryEntry file offset = Except.ok (cd, next)) :
    next = offset + 4 + 42 +
      ((cd.filenameLength + cd.extraFieldLength + cd.commentLength) % 65536) := by
  simp only [readCentralDirectoryEntry] at h
  split at h
  · exact absurd h (by simp)
  · split at h
    · exact absurd h (by simp)
    · split at h
      · exact absurd h (by simp)
      · split at h
        · exact absurd h (by simp)
        · split at h
          · exact absurd h (by simp)
          · split at h
            · exact absurd h (by simp)
            · have h2 := (Except.ok.injEq _ _).mp h
              have hcd := congrArg Prod.fst h2
              have hnext := congrArg Prod.snd h2
              simp only at hcd hnext
              rw [← hnext, ← hcd]

/-- Witness for `readCDE_nextOffset` at the `c5file` record: the computed
next offset 46 equals `0 + 4 + 42 + ((65535 + 1 + 0) % 65536)`. -/
theorem readCDE_nextOffset_witness :
    (46 : Nat) = 0 + 4 + 42 +
      ((c5cd.filenameLength + c5cd.extraFieldLength + c5cd.commentLength) % 65536) :=
  readCDE_nextOffset c5file 0 c5cd 46 (by
    have h := readCDE_eval c5file 0 [80, 75, 1, 2] c5fb (List.replicate 65535 0) [0] []
      65581 65582 65582 c5_hsb (by decide) c5_hfb c5_hnb c5_hxb c5_hcb
    exact h.trans (by rfl))

end GoZip
